import Mathlib

/-!
# whatsnext: settings store, due-date scan and edge-snap engine of `main.js`

A shallow embedding of the parts of `src/main.js` that carry the program's
invariants: the `Store` class (lines 7-105), `checkNotifications`
(lines 129-157), `checkEdgeSnap` (lines 160-273) and the positioning part of
`createBubbleWindow` (lines 276-318).

Conventions of the embedding.

* JavaScript values are the type `JVal`.  Numbers are the integers: every number
  the program stores (sizes, coordinates, minutes, timestamps) is one.  Strings
  hold characters of the Basic Multilingual Plane, whose count is the
  JavaScript `length`.
* An object is the list of its own properties.  A property read sees own
  properties only; members inherited through the prototype chain are not part of
  the embedding.
* Mutation in place becomes functional update: a function returns the new
  document.  The document is a tree, no two paths share a subobject, and
  `this.defaults` is a value: what the document shares with the defaults object
  that `load` returned is not followed.
* A JavaScript exception is `Except.error`; the document a call leaves behind
  when it raises half-way is not described.
* `Date.now()` and the outcome of `fs.writeFileSync` are arguments of the
  operation that consults them.
-/

namespace WhatsNext

/-! ## JavaScript values -/

/-- The values of the settings document: the JSON values, `undefined`, and
arrays kept as exotic objects, that is a `length` together with the own
properties (the index properties `"0"`, `"1"`, ... among them). -/
inductive JVal where
  | undefined
  | null
  | bool (b : Bool)
  | num (n : Int)
  | str (s : String)
  | arr (len : Nat) (props : List (String × JVal))
  | obj (props : List (String × JVal))
  deriving Inhabited

/-- What an operation can raise.  `unmodelled` marks the one step the embedding
does not follow: the coercion of a non-number assigned to an array length. -/
inductive JsError where
  | typeError
  | rangeError
  | syntaxError
  | fsError
  | unmodelled
  deriving DecidableEq, Inhabited

namespace JVal

/-- The test `if (v)`: JavaScript truthiness. -/
def truthy : JVal → Bool
  | undefined => false
  | null => false
  | bool b => b
  | num n => decide (n ≠ 0)
  | str s => decide (s ≠ "")
  | arr _ _ => true
  | obj _ => true

/-- The test `typeof v === 'object'`; it holds of `null` and of arrays too. -/
def typeofObject : JVal → Bool
  | null => true
  | arr _ _ => true
  | obj _ => true
  | _ => false

/-- The plain objects: what the data model calls a JSON object. -/
def isObj : JVal → Bool
  | obj _ => true
  | _ => false

/-- The containers: the values a property can be assigned on, plain objects
and arrays. -/
def isContainer : JVal → Bool
  | obj _ => true
  | arr _ _ => true
  | _ => false

/-- The test `v !== undefined`. -/
def isDefined : JVal → Bool
  | undefined => false
  | _ => true

/-- The expression `a || b`. -/
def orElse (a b : JVal) : JVal := if a.truthy then a else b

/-- Own property lookup in a property list; an absent key reads `undefined`. -/
def lookupProp (k : String) : List (String × JVal) → JVal
  | [] => undefined
  | kv :: rest => if kv.1 = k then kv.2 else lookupProp k rest

/-- Own property definition: an existing key keeps its place, a new one is
appended. -/
def storeProp (k : String) (v : JVal) : List (String × JVal) → List (String × JVal)
  | [] => [(k, v)]
  | kv :: rest => if kv.1 = k then (k, v) :: rest else kv :: storeProp k v rest

/-- Own property removal. -/
def eraseProp (k : String) (props : List (String × JVal)) : List (String × JVal) :=
  props.filter (fun kv => decide (kv.1 ≠ k))

/-- Value of a run of decimal digits, most significant first. -/
def parseDigits : List Char → Nat → Option Nat
  | [], acc => some acc
  | c :: cs, acc =>
    if '0' ≤ c ∧ c ≤ '9' then parseDigits cs (10 * acc + (c.toNat - 48)) else none

/-- The number a property key denotes when it is a canonical numeric string
(`"0"`, `"7"`, `"12"`, not `"07"` and not `""`). -/
def arrayIndex (k : String) : Option Nat :=
  match k.data with
  | [] => none
  | ['0'] => some 0
  | '0' :: _ => none
  | cs => parseDigits cs 0

/-- The own properties of a string: `length` and its characters. -/
def strProp (s : String) (k : String) : JVal :=
  if k = "length" then num s.length
  else match arrayIndex k with
    | some i =>
      (match s.data.get? i with
       | some c => str (String.singleton c)
       | none => undefined)
    | none => undefined

/-- The read `v[k]` for a string key, `v` neither `undefined` nor `null`. -/
def getProp : JVal → String → JVal
  | obj props, k => lookupProp k props
  | arr len props, k => if k = "length" then num len else lookupProp k props
  | str s, k => strProp s k
  | _, _ => undefined

/-- The read `v[k]` as an expression of its own: it raises on `undefined` and
`null`. -/
def readProp : JVal → String → Except JsError JVal
  | undefined, _ => .error .typeError
  | null, _ => .error .typeError
  | v, k => .ok (getProp v k)

/-- Whether an own index property survives `length := n`. -/
def keptBelow (n : Nat) (kv : String × JVal) : Bool :=
  match arrayIndex kv.1 with
  | some i => decide (i < n)
  | none => true

/-- The assignment `c[k] = v`, returning the container afterwards.  In strict
code (`strict = true`, the body of `class Store`) an assignment to a property of
a primitive raises; in sloppy code it is ignored. -/
def putProp (strict : Bool) : JVal → String → JVal → Except JsError JVal
  | obj props, k, v => .ok (obj (storeProp k v props))
  | arr len props, k, v =>
    if k = "length" then
      match v with
      | num n =>
        if 0 ≤ n ∧ n < 4294967296 then .ok (arr n.toNat (props.filter (keptBelow n.toNat)))
        else .error .rangeError
      | undefined => .error .rangeError
      | obj [] => .error .rangeError
      | _ => .error .unmodelled
    else
      match arrayIndex k with
      | some i =>
        if i < 4294967295 then .ok (arr (max len (i + 1)) (storeProp k v props))
        else .ok (arr len (storeProp k v props))
      | none => .ok (arr len (storeProp k v props))
  | undefined, _, _ => .error .typeError
  | null, _, _ => .error .typeError
  | c, _, _ => if strict then .error .typeError else .ok c

/-- The statement `delete c[k]` in strict code, returning the container
afterwards: the `length` of an array or string and the characters of a string
cannot be deleted. -/
def deleteProp : JVal → String → Except JsError JVal
  | obj props, k => .ok (obj (eraseProp k props))
  | arr len props, k =>
    if k = "length" then .error .typeError else .ok (arr len (eraseProp k props))
  | str s, k =>
    if k = "length" then .error .typeError
    else match arrayIndex k with
      | some i => if i < s.length then .error .typeError else .ok (str s)
      | none => .ok (str s)
  | undefined, _ => .error .typeError
  | null, _ => .error .typeError
  | c, _ => .ok c

/-- The own enumerable properties an object spread `{...v}` copies. -/
def ownEntries : JVal → List (String × JVal)
  | obj props => props
  | arr _ props => props
  | str s => s.data.enum.map (fun ic => (toString ic.1, str (String.singleton ic.2)))
  | _ => []

/-- The spread `...v` into the property list of an object literal under
construction. -/
def spreadInto (acc : List (String × JVal)) (v : JVal) : List (String × JVal) :=
  (ownEntries v).foldl (fun a kv => storeProp kv.1 kv.2 a) acc

end JVal

open JVal

/-- Pieces of `s.split('.')`, on the characters of `s`; `cur` holds the
characters of the piece being read, last one first. -/
def splitDots : List Char → List Char → List String
  | [], cur => [String.mk cur.reverse]
  | c :: cs, cur =>
    if c = '.' then String.mk cur.reverse :: splitDots cs [] else splitDots cs (c :: cur)

/-- The call `key.split('.')`. -/
def split (key : String) : List String := splitDots key.data []

/-! ## The store -/

/-- The state of a file on disk as `load` sees it: absent, present but
unreadable, or a text, given by what `JSON.parse` makes of it (`none` when it
raises `SyntaxError`). -/
inductive DiskFile where
  | missing
  | unreadable
  | text (parsed : Option JVal)

/-- One call of `fs.writeFileSync`: when, the document written, and whether the
call succeeded. -/
structure WriteRec where
  time : Int
  content : JVal
  ok : Bool

/-- What the store acts upon outside itself: the calls of `fs.writeFileSync` so
far, newest first, and the due times of the armed `setTimeout` callbacks. -/
structure Host where
  writes : List WriteRec
  timers : List Int

/-- The fields of `class Store` that change (`this.path` does not). -/
structure Store where
  defaults : JVal
  data : JVal
  lastSave : Int
  pendingSave : Bool

/-- The field `saveDebounceTime`, set to 500 by the constructor and never
assigned again. -/
def saveDebounceTime : Int := 500

namespace Store

/-- The call `fs.existsSync(this.path)`, which does not raise. -/
def existsSync : DiskFile → Bool
  | .missing => false
  | _ => true

/-- The call `fs.readFileSync(this.path, 'utf8')`: the text, given by what
`JSON.parse` makes of it; it raises when there is no file or it cannot be
read. -/
def readFileSync : DiskFile → Except JsError (Option JVal)
  | .text parsed => .ok parsed
  | _ => .error .fsError

/-- The call `JSON.parse(text)` on a text given by what it makes of it. -/
def jsonParse : Option JVal → Except JsError JVal
  | some v => .ok v
  | none => .error .syntaxError

/-- The expression inside the `try` of `load()`, lines 19-21. -/
def loadTry (defaults : JVal) (file : DiskFile) : Except JsError JVal :=
  if existsSync file then do
    let text ← readFileSync file
    jsonParse text
  else pure defaults

/-- The method `load()`, lines 17-26: the `try` and, for whatever it raises, the
`catch` that returns the defaults. -/
def load (defaults : JVal) (file : DiskFile) : JVal :=
  match loadTry defaults file with
  | .ok v => v
  | .error _ => defaults

/-- The `constructor(options)`, lines 8-15; `defaults` is `options.defaults`. -/
def create (defaults : JVal) (file : DiskFile) (now : Int) : Store :=
  let d := orElse defaults (obj [])
  { defaults := d, data := load d file, lastSave := now, pendingSave := false }

/-- The method `_actualSave()`, lines 47-54. -/
def _actualSave (s : Store) (h : Host) (now : Int) (diskOk : Bool) : Store × Host :=
  if diskOk then
    ({ s with lastSave := now }, { h with writes := ⟨now, s.data, true⟩ :: h.writes })
  else
    (s, { h with writes := ⟨now, s.data, false⟩ :: h.writes })

/-- The method `save()`, lines 28-45. -/
def save (s : Store) (h : Host) (now : Int) (diskOk : Bool) : Store × Host :=
  if s.pendingSave then (s, h)
  else if now - s.lastSave < saveDebounceTime then
    if !s.pendingSave then
      ({ s with pendingSave := true }, { h with timers := h.timers ++ [now + saveDebounceTime] })
    else (s, h)
  else s._actualSave h now diskOk

/-- The callback `save()` hands to `setTimeout`, lines 37-40. -/
def deferredSave (s : Store) (h : Host) (now : Int) (diskOk : Bool) : Store × Host :=
  let r := s._actualSave h now diskOk
  ({ r.1 with pendingSave := false }, r.2)

/-- The loop of `get`, lines 62-65. -/
def getPath : JVal → List String → JVal
  | cur, [] => cur
  | .undefined, _ :: _ => .undefined
  | .null, _ :: _ => .undefined
  | cur, part :: rest => getPath (getProp cur part) rest

/-- The method `get(key)`, lines 56-68, for a string key. -/
def get (s : Store) (key : String) : JVal :=
  if !(JVal.str key).truthy then s.data else getPath s.data (split key)

/-- The container `cur` once the object it holds under `part` has been mutated
in place to `child`: the view from above of an assignment made below. -/
def withChild (cur : JVal) (part : String) (child : JVal) : JVal :=
  match child with
  | .obj _ | .arr _ _ =>
    (match cur with
     | .obj props => .obj (storeProp part child props)
     | .arr len props => .arr len (storeProp part child props)
     | c => c)
  | _ => cur

/-- The loop and the final assignment of `set`, lines 80-88, on the value
`current` refers to; the result is that value after the assignments below it. -/
def setPath : JVal → List String → JVal → Except JsError JVal
  | cur, [], _ => .ok cur
  | cur, [last], value => putProp true cur last value
  | cur, part :: rest, value => do
    let child ← readProp cur part
    let cur1 ← if !child.truthy || !child.typeofObject then putProp true cur part (obj []) else pure cur
    let child1 ← readProp cur1 part
    let child2 ← setPath child1 rest value
    pure (withChild cur1 part child2)

/-- The method `set(key, value)`, lines 70-90. -/
def set (s : Store) (h : Host) (now : Int) (diskOk : Bool) (key value : JVal) :
    Except JsError (Store × Host) :=
  if key.typeofObject then
    .ok (save { s with data := obj (spreadInto (spreadInto [] s.data) key) } h now diskOk)
  else
    match key with
    | .str k => do
      let d ← setPath s.data (split k) value
      pure (save { s with data := d } h now diskOk)
    | _ => .error .typeError

/-- The loop and the final `delete` of `delete`, lines 96-102; `none` is the
early `return`. -/
def deletePath : JVal → List String → Except JsError (Option JVal)
  | cur, [] => .ok (some cur)
  | cur, [last] => do
    let c ← deleteProp cur last
    pure (some c)
  | cur, part :: rest => do
    let child ← readProp cur part
    if !child.truthy then pure none
    else do
      let r ← deletePath child rest
      match r with
      | none => pure none
      | some child1 => pure (some (withChild cur part child1))

/-- The method `delete(key)`, lines 92-104. -/
def delete (s : Store) (h : Host) (now : Int) (diskOk : Bool) (key : String) :
    Except JsError (Store × Host) := do
  let r ← deletePath s.data (split key)
  match r with
  | none => pure (s, h)
  | some d => pure (save { s with data := d } h now diskOk)

end Store


/-- The files from which `load` cannot return anything but an object, its
defaults being one: the absent, the unreadable, the unparsable, and the texts
of a JSON object. -/
def DiskFile.yieldsObject : DiskFile → Bool
  | .text (some v) => v.isObj
  | _ => true

/-- The literal `defaults` of `new Store(...)`, lines 110-118. -/
def appDefaults : JVal :=
  obj [("tasks", arr 0 []), ("recurringTasks", arr 0 []),
    ("settings", obj [("startWithWindows", bool true), ("notificationTime", num 30)]),
    ("lastRecurringTaskReset", num 0)]

/-- The handler of `refresh-settings`, line 595: `store.data = store.load()`. -/
def refreshSettings (s : Store) (file : DiskFile) : Store :=
  { s with data := Store.load s.defaults file }

/-! ## Executions of the store -/

/-- The store, what it acts upon, and the reading of the clock at the last
event. -/
structure Sys where
  store : Store
  host : Host
  now : Int

/-- What happens to a store between two instants.  `mutate d` is any change of
the document in memory that leaves `d` (the assignments of a `set` or `delete`,
run to the end or cut short by an exception, a reload, an assignment through a
reference `get` returned); a `set` is a `mutate` followed by a `save`. -/
inductive Event where
  | mutate (d : JVal)
  | save (t : Int) (diskOk : Bool)
  | fire (i : Nat) (t : Int) (diskOk : Bool)

/-- The store right after `new Store(...)` at time `t0`. -/
def boot (defaults : JVal) (file : DiskFile) (t0 : Int) : Sys :=
  { store := Store.create defaults file t0, host := ⟨[], []⟩, now := t0 }

/-- One event; `none` when it cannot happen: the clock does not run backwards,
and the callback of timer number `i` runs only if that timer is armed and due. -/
def step (sys : Sys) : Event → Option Sys
  | .mutate d => some { sys with store := { sys.store with data := d } }
  | .save t diskOk =>
    if sys.now ≤ t then
      let r := sys.store.save sys.host t diskOk
      some { store := r.1, host := r.2, now := t }
    else none
  | .fire i t diskOk =>
    match sys.host.timers.get? i with
    | none => none
    | some due =>
      if sys.now ≤ t ∧ due ≤ t then
        let r := sys.store.deferredSave { sys.host with timers := sys.host.timers.eraseIdx i } t diskOk
        some { store := r.1, host := r.2, now := t }
      else none

/-- A sequence of events. -/
def run (sys : Sys) : List Event → Option Sys
  | [] => some sys
  | e :: es => (step sys e).bind (fun sys1 => run sys1 es)

/-- The times of the successful writes, newest first. -/
def successTimes (writes : List WriteRec) : List Int :=
  (writes.filter (fun w => w.ok)).map (fun w => w.time)

/-- Successive entries of a newest-first list of instants lie at least
`saveDebounceTime` apart. -/
def spaced : List Int → Bool
  | [] => true
  | [_] => true
  | a :: b :: rest => decide (b + saveDebounceTime ≤ a) && spaced (b :: rest)

/-- What every state of an execution satisfies: the last save is not in the
future; a deferred write is armed exactly while `pendingSave` holds, there is
one only, and it is due a full debounce time after the last save; no successful
write is later than `lastSave`; the successful writes are spaced. -/
def Sys.inv (sys : Sys) : Prop :=
  sys.store.lastSave ≤ sys.now ∧
  (sys.store.pendingSave = false → sys.host.timers = []) ∧
  (sys.store.pendingSave = true →
    ∃ due, sys.host.timers = [due] ∧ sys.store.lastSave + saveDebounceTime ≤ due) ∧
  (∀ t ∈ successTimes sys.host.writes, t ≤ sys.store.lastSave) ∧
  spaced (successTimes sys.host.writes) = true

/-- An execution for illustration: a change and two `save` requests right after
construction, the deferred write, a request within the debounce time of that
write and its deferred write, and a request long after. -/
def sampleTrace : List Event :=
  [.mutate (obj [("a", num 1)]), .save 100 true, .save 200 true, .fire 0 600 true,
    .save 700 true, .fire 0 1200 true, .save 2000 true]

/-- One call `store.set(key, value)` with the clock reading and the disk outcome
it meets. -/
structure SetCall where
  t : Int
  diskOk : Bool
  key : JVal
  value : JVal

/-- A sequence of `set` calls, each on the state the previous one left. -/
def setAll : Store × Host → List SetCall → Except JsError (Store × Host)
  | sh, [] => .ok sh
  | sh, c :: cs => do
    let sh1 ← sh.1.set sh.2 c.t c.diskOk c.key c.value
    setAll sh1 cs

/-! ## The due-date scan -/

/-- The fields of a task that `checkNotifications` reads.  `dueDate` is the
instant `new Date(task.dueDate).getTime()` in milliseconds, `none` when
`task.dueDate` is falsy or not a date. -/
structure Task where
  id : String
  title : String
  dueDate : Option Int
  completed : Bool
  notified : Bool
  deriving DecidableEq

/-- A call of `notifier.notify`: the task named in the message and the minutes
announced. -/
structure Notice where
  taskTitle : String
  minutes : Int
  deriving DecidableEq

/-- The value `Math.floor(timeDiff / (1000 * 60))`, line 138. -/
def minutesDiff (due now : Int) : Int := (due - now) / (1000 * 60)

/-- The test of line 135 and line 140: the task is to be announced now. -/
def dueSoon (notificationTime now : Int) (task : Task) : Bool :=
  match task.dueDate with
  | none => false
  | some due =>
    !task.completed &&
      (decide (minutesDiff due now ≤ notificationTime) && decide (minutesDiff due now > 0)
        && !task.notified)

/-- The body of the `forEach` callback, lines 135-155, for one task: `tasks` is
the array read at line 130, `st` the notices sent so far and the array held
under `tasks` in the store. -/
def scanTask (tasks : List Task) (notificationTime now : Int)
    (st : List Notice × List Task) (task : Task) : List Notice × List Task :=
  match task.dueDate with
  | none => st
  | some due =>
    if dueSoon notificationTime now task then
      (st.1 ++ [⟨task.title, minutesDiff due now⟩],
        tasks.map (fun t => if t.id = task.id then { t with notified := true } else t))
    else st

/-- The function `checkNotifications`, lines 129-157: the notices sent and the array the
store holds under `tasks` when the scan ends. -/
def checkNotifications (tasks : List Task) (notificationTime now : Int) :
    List Notice × List Task :=
  tasks.foldl (scanTask tasks notificationTime now) ([], tasks)

/-! ## The edge-snap engine -/

/-- A rectangle of the screen, as `display.workArea`. -/
structure Rect where
  x : Int
  y : Int
  width : Int
  height : Int
  deriving DecidableEq

/-- What the program asks of `screen`: the work area of the display nearest a
point and that of the primary display. -/
structure Screen where
  nearest : Int → Int → Rect
  primary : Rect

/-- The widget as the window system holds it. -/
structure BubbleWindow where
  destroyed : Bool
  x : Int
  y : Int
  width : Int
  height : Int
  deriving DecidableEq

/-- The four edges of a work area. -/
inductive EdgeName where
  | left
  | top
  | right
  | bottom
  deriving DecidableEq

/-- An entry of the array `edges`, line 196. -/
structure EdgeDist where
  name : EdgeName
  dist : Int
  deriving DecidableEq

/-- The array `edges` of lines 196-201. -/
def edges (distToLeft distToTop distToRight distToBottom : Int) : List EdgeDist :=
  [⟨.left, distToLeft⟩, ⟨.top, distToTop⟩, ⟨.right, distToRight⟩, ⟨.bottom, distToBottom⟩]

/-- The call `edges.sort((a, b) => a.dist - b.dist)`, line 204: `Array.prototype.sort` is
stable, entries of equal distance keep their order. -/
def sortEdges (es : List EdgeDist) : List EdgeDist :=
  es.insertionSort (fun a b => a.dist ≤ b.dist)

/-- The constant `closestEdge`, line 205: the first entry after sorting. -/
def closestEdge (distToLeft distToTop distToRight distToBottom : Int) : EdgeDist :=
  (sortEdges (edges distToLeft distToTop distToRight distToBottom)).headD ⟨.left, distToLeft⟩

/-- The constant `distToLeft`, line 188. -/
def distToLeft (bounds : Rect) (w : BubbleWindow) : Int := w.x - bounds.x

/-- The constant `distToTop`, line 189. -/
def distToTop (bounds : Rect) (w : BubbleWindow) : Int := w.y - bounds.y

/-- The constant `distToRight`, line 190. -/
def distToRight (bounds : Rect) (w : BubbleWindow) : Int :=
  (bounds.x + bounds.width) - (w.x + w.width)

/-- The constant `distToBottom`, line 191. -/
def distToBottom (bounds : Rect) (w : BubbleWindow) : Int :=
  (bounds.y + bounds.height) - (w.y + w.height)

/-- Lines 188-205 together: the closest edge of the work area `bounds` for the
widget `w`. -/
def nearestEdge (bounds : Rect) (w : BubbleWindow) : EdgeDist :=
  closestEdge (distToLeft bounds w) (distToTop bounds w) (distToRight bounds w)
    (distToBottom bounds w)

/-- The least of the four distances. -/
def minDist (bounds : Rect) (w : BubbleWindow) : Int :=
  min (distToLeft bounds w) (min (distToTop bounds w)
    (min (distToRight bounds w) (distToBottom bounds w)))

/-- The threshold of line 208. -/
def snapThreshold : Int := 30

/-- The `switch` of lines 218-231: the position flush against the edge named,
the other coordinate kept. -/
def snapTarget (name : EdgeName) (bounds : Rect) (size x y : Int) : Int × Int :=
  match name with
  | .left => (bounds.x, y)
  | .right => (bounds.x + bounds.width - size, y)
  | .top => (x, bounds.y)
  | .bottom => (x, bounds.y + bounds.height - size)

/-- The position `checkEdgeSnap` moves the widget to, lines 213-239, or keeps it
at, lines 257-267. -/
def restPosition (bounds : Rect) (size : Int) (w : BubbleWindow) : Int × Int :=
  if (nearestEdge bounds w).dist < snapThreshold then
    snapTarget (nearestEdge bounds w).name bounds size w.x w.y
  else (w.x, w.y)

/-- The state `checkEdgeSnap` works on: the store, what the store acts upon and
the module variable `bubbleWindow` (`none` when it is `null`). -/
structure App where
  store : Store
  host : Host
  bubbleWindow : Option BubbleWindow

/-- The value `bubbleSettings.size || 40` of lines 176-178 and 291-292. -/
def bubbleSize (store : Store) : JVal :=
  let settings := orElse (store.get "settings") (obj [])
  let bubbleSettings := orElse (getProp settings "bubble") (obj [])
  orElse (getProp bubbleSettings "size") (num 40)

/-- Lines 243-245 and 264-266: the position is written into the settings object
and the settings are put back.  The assignment of line 244 stands in a function
outside the class, sloppy code. -/
def savePosition (app : App) (now : Int) (diskOk : Bool) (x y : Int) :
    Except JsError (Store × Host) := do
  let settings := orElse (app.store.get "settings") (obj [])
  let settings1 ← putProp false settings "bubblePosition" (obj [("x", num x), ("y", num y)])
  app.store.set app.host now diskOk (str "settings") settings1

/-- The function `checkEdgeSnap`, lines 160-273: the value returned (`none` for the bare
`return` of line 164) and the state afterwards.  `setSize` raises on a size that
is not a number; any exception ends in the `catch` of line 269, which returns
`false`.  Console output and the delayed `force-refresh-size` message are left
out. -/
def checkEdgeSnap (screen : Screen) (now : Int) (diskOk : Bool) (app : App) :
    Option Bool × App :=
  match app.bubbleWindow with
  | none => (none, app)
  | some w =>
    if w.destroyed then (none, app)
    else
      match bubbleSize app.store with
      | num size =>
        let bounds := screen.nearest w.x w.y
        let closest := nearestEdge bounds w
        if closest.dist < snapThreshold then
          let newPos := snapTarget closest.name bounds size w.x w.y
          let newX := newPos.1
          let newY := newPos.2
          let w1 : BubbleWindow := { w with width := size, height := size, x := newX, y := newY }
          match savePosition app now diskOk newX newY with
          | .ok sh => (some true, { store := sh.1, host := sh.2, bubbleWindow := some w1 })
          | .error _ => (some false, { app with bubbleWindow := some w1 })
        else
          let w1 : BubbleWindow := { w with width := size, height := size }
          match savePosition app now diskOk w.x w.y with
          | .ok sh => (some false, { store := sh.1, host := sh.2, bubbleWindow := some w1 })
          | .error _ => (some false, { app with bubbleWindow := some w1 })
      | _ => (some false, app)

/-- The options `createBubbleWindow` passes to `new BrowserWindow`, lines
304-308; the default ordinate is half of a sum and may be a fraction. -/
structure WindowOptions where
  width : Int
  height : Int
  x : ℚ
  y : ℚ

/-- A saved coordinate or else the default, `saved || dflt` of lines 307-308, for
a saved coordinate that is a number or falsy. -/
def coordinateOr (saved : JVal) (dflt : ℚ) : Option ℚ :=
  match saved with
  | num n => if n ≠ 0 then some n else some dflt
  | v => if v.truthy then none else some dflt

/-- The positioning part of `createBubbleWindow`, lines 278-308: the options the
window is created with; `none` when a saved coordinate or the size is not a
number, which the window system does not accept. -/
def createBubbleWindow (screen : Screen) (store : Store) : Option WindowOptions :=
  let settings := orElse (store.get "settings") (obj [])
  let savedPosition := orElse (getProp settings "bubblePosition") (obj [])
  let savedX := getProp savedPosition "x"
  let savedY := getProp savedPosition "y"
  let targetDisplay : Option Rect :=
    if savedX.isDefined && savedY.isDefined then
      match savedX, savedY with
      | num a, num b => some (screen.nearest a b)
      | _, _ => none
    else some screen.primary
  match targetDisplay, bubbleSize store with
  | some workArea, num size =>
    let defaultX : ℚ := workArea.x + workArea.width - size - 20
    let defaultY : ℚ := workArea.y + (workArea.height : ℚ) / 2 - (size : ℚ) / 2
    match coordinateOr savedX defaultX, coordinateOr savedY defaultY with
    | some x, some y => some { width := size, height := size, x := x, y := y }
    | _, _ => none
  | _, _ => none

/-- A screen of one display with the work area `(0, 0, 1920, 1080)`. -/
def sampleScreen : Screen :=
  { nearest := fun _ _ => ⟨0, 0, 1920, 1080⟩, primary := ⟨0, 0, 1920, 1080⟩ }

/-- The program right after start with no settings file, its widget of size
40 at `(x, y)`. -/
def sampleApp (x y : Int) : App :=
  { store := Store.create appDefaults .missing 0, host := ⟨[], []⟩,
    bubbleWindow := some ⟨false, x, y, 40, 40⟩ }

/-! ## Facts about properties -/

namespace JVal

theorem lookupProp_storeProp (k : String) (v : JVal) (props : List (String × JVal)) :
    lookupProp k (storeProp k v props) = v := by
  induction props with
  | nil => simp [storeProp, lookupProp]
  | cons kv rest ih =>
    by_cases h : kv.1 = k
    · simp [storeProp, lookupProp, h]
    · simp [storeProp, lookupProp, h, ih]

theorem lookupProp_storeProp_ne {k k1 : String} (h : k ≠ k1) (v : JVal)
    (props : List (String × JVal)) : lookupProp k (storeProp k1 v props) = lookupProp k props := by
  induction props with
  | nil => simp [storeProp, lookupProp, Ne.symm h]
  | cons kv rest ih =>
    obtain ⟨a, b⟩ := kv
    by_cases h1 : a = k1
    · subst h1
      simp [storeProp, lookupProp, Ne.symm h]
    · by_cases h2 : a = k
      · subst h2
        simp [storeProp, lookupProp, h1]
      · simp [storeProp, lookupProp, h1, h2, ih]

theorem putProp_ok_isContainer {c c1 : JVal} {k : String} {v : JVal}
    (h : putProp true c k v = .ok c1) : c.isContainer = true ∧ c1.isContainer = true := by
  cases c <;> simp [putProp, isContainer] at h ⊢
  case arr len props =>
    split at h
    · split at h
      · split at h <;> simp at h
        subst h; rfl
      all_goals simp at h
    · split at h
      · split at h <;> (simp at h; subst h; rfl)
      · simp at h; subst h; rfl
  case obj props => subst h; rfl

theorem strProp_isContainer (s k : String) : (strProp s k).isContainer = false := by
  unfold strProp
  split
  · rfl
  · split
    · split <;> rfl
    · rfl

theorem getProp_isContainer {c : JVal} {k : String} (h : (getProp c k).isContainer = true) :
    c.isContainer = true ∧ ∀ len props, c = arr len props → k ≠ "length" := by
  cases c
  case str s => simp [getProp, strProp_isContainer] at h
  case arr len props =>
    refine ⟨rfl, ?_⟩
    intro _ _ _ hk
    simp [getProp, hk, isContainer] at h
  case obj props => exact ⟨rfl, by intro _ _ h0; cases h0⟩
  all_goals simp [getProp, isContainer] at h

end JVal

namespace Store

theorem getPath_cons_of_isContainer {c : JVal} (h : c.isContainer = true) (part : String)
    (rest : List String) : getPath c (part :: rest) = getPath (getProp c part) rest := by
  cases c <;> simp [isContainer] at h <;> simp [getPath]

theorem readProp_of_isContainer {c : JVal} (h : c.isContainer = true) (k : String) :
    readProp c k = .ok (getProp c k) := by
  cases c <;> simp [isContainer] at h <;> simp [readProp]

theorem isContainer_iff (v : JVal) :
    (!v.truthy || !v.typeofObject) = !v.isContainer := by
  cases v <;> simp [truthy, typeofObject, isContainer]

/-- What a successful `set` loop did at its first segment. -/
theorem setPath_cons_ok {c c1 v : JVal} {part p2 : String} {rest : List String}
    (h : setPath c (part :: p2 :: rest) v = .ok c1) :
    ∃ cur1 child2,
      (((getProp c part).isContainer = true ∧ cur1 = c) ∨
        ((getProp c part).isContainer = false ∧ putProp true c part (obj []) = .ok cur1)) ∧
      c.isContainer = true ∧ cur1.isContainer = true ∧
      setPath (getProp cur1 part) (p2 :: rest) v = .ok child2 ∧
      c1 = withChild cur1 part child2 := by
  simp only [setPath, bind, Except.bind, isContainer_iff] at h
  cases hr : readProp c part with
  | error e => simp [hr] at h
  | ok child =>
    have hchild : child = getProp c part := by
      cases c <;> simp [readProp] at hr <;> simp [hr]
    subst hchild
    simp only [hr] at h
    by_cases hcont : (getProp c part).isContainer = true
    · have hc := (getProp_isContainer hcont).1
      simp only [hcont, Bool.not_true, Bool.false_eq_true, if_false, pure, Except.pure,
        readProp_of_isContainer hc] at h
      cases hs : setPath (getProp c part) (p2 :: rest) v with
      | error e => simp [hs] at h
      | ok child2 =>
        simp only [hs, Except.ok.injEq] at h
        exact ⟨c, child2, Or.inl ⟨hcont, rfl⟩, hc, hc, hs, h.symm⟩
    · simp only [Bool.not_eq_true] at hcont
      simp only [hcont, Bool.not_false, if_true] at h
      cases hput : putProp true c part (obj []) with
      | error e => simp [hput] at h
      | ok cur1 =>
        obtain ⟨hc, hc1⟩ := putProp_ok_isContainer hput
        simp only [hput, readProp_of_isContainer hc1] at h
        cases hs : setPath (getProp cur1 part) (p2 :: rest) v with
        | error e => simp [hs] at h
        | ok child2 =>
          simp only [hs, pure, Except.pure, Except.ok.injEq] at h
          exact ⟨cur1, child2, Or.inr ⟨hcont, rfl⟩, hc, hc1, hs, h.symm⟩

theorem readProp_ok {c child : JVal} {k : String} (h : readProp c k = .ok child) :
    child = getProp c k ∧ ∀ part rest, getPath c (part :: rest) = getPath (getProp c part) rest := by
  cases c <;> simp [readProp] at h <;> simp [h, getPath]

/-- What a successful `delete` loop did at its first segment. -/
theorem deletePath_cons_ok {c : JVal} {part p2 : String} {rest : List String}
    {r : Option JVal} (h : deletePath c (part :: p2 :: rest) = .ok r) :
    readProp c part = .ok (getProp c part) ∧
      (((getProp c part).truthy = false ∧ r = none) ∨
       ((getProp c part).truthy = true ∧
          deletePath (getProp c part) (p2 :: rest) = .ok none ∧ r = none) ∨
       ((getProp c part).truthy = true ∧ ∃ child1,
          deletePath (getProp c part) (p2 :: rest) = .ok (some child1) ∧
          r = some (withChild c part child1))) := by
  simp only [deletePath, bind, Except.bind] at h
  cases hr : readProp c part with
  | error e => simp [hr] at h
  | ok child =>
    obtain ⟨rfl, _⟩ := readProp_ok hr
    refine ⟨rfl, ?_⟩
    simp only [hr] at h
    by_cases ht : (getProp c part).truthy = true
    · simp only [ht, Bool.not_true, Bool.false_eq_true, if_false] at h
      cases hd : deletePath (getProp c part) (p2 :: rest) with
      | error e => simp [hd] at h
      | ok r1 =>
        simp only [hd] at h
        cases r1 with
        | none =>
          simp only [pure, Except.pure, Except.ok.injEq] at h
          exact Or.inr (Or.inl ⟨ht, rfl, h.symm⟩)
        | some child1 =>
          simp only [pure, Except.pure, Except.ok.injEq] at h
          exact Or.inr (Or.inr ⟨ht, child1, rfl, h.symm⟩)
    · simp only [Bool.not_eq_true] at ht
      simp only [ht, Bool.not_false, if_true, pure, Except.pure, Except.ok.injEq] at h
      exact Or.inl ⟨ht, h.symm⟩

theorem splitDots_ne_nil : ∀ (cs cur : List Char), splitDots cs cur ≠ []
  | [], _ => by simp [splitDots]
  | c :: cs, cur => by
    unfold splitDots
    split
    · simp
    · exact splitDots_ne_nil cs _

theorem split_eq_cons (key : String) : ∃ part rest, split key = part :: rest := by
  cases h : split key with
  | nil => exact absurd h (splitDots_ne_nil _ _)
  | cons part rest => exact ⟨part, rest, rfl⟩

theorem save_data (s : Store) (h : Host) (now : Int) (diskOk : Bool) :
    (s.save h now diskOk).1.data = s.data := by
  unfold save _actualSave
  split
  · rfl
  · split
    · split <;> rfl
    · split <;> rfl

theorem typeofObject_str (p : String) : (JVal.str p).typeofObject = false := rfl

/-- A `set` on a path either raises in its loop or saves the document the loop
left. -/
theorem set_str_eq (s : Store) (h : Host) (now : Int) (diskOk : Bool) (p : String) (v : JVal) :
    s.set h now diskOk (.str p) v =
      (setPath s.data (split p) v).map (fun d => save { s with data := d } h now diskOk) := by
  unfold set
  simp only [typeofObject_str, Bool.false_eq_true, if_false]
  cases setPath s.data (split p) v <;> rfl

theorem get_of_ne_empty (s : Store) {p : String} (hp : p ≠ "") :
    s.get p = getPath s.data (split p) := by
  simp [get, truthy, hp]

theorem withChild_isObj {c : JVal} (h : c.isObj = true) (part : String) (child : JVal) :
    (withChild c part child).isObj = true := by
  cases c <;> simp [isObj] at h
  cases child <;> simp [withChild, isObj]

theorem putProp_isObj {c c1 : JVal} {k : String} {v : JVal} (h : c.isObj = true)
    (hp : putProp true c k v = .ok c1) : c1.isObj = true := by
  cases c <;> simp [isObj] at h
  simp only [putProp, Except.ok.injEq] at hp
  subst hp
  rfl

theorem setPath_isObj {v : JVal} : ∀ (rest : List String) (part : String) (c c1 : JVal),
    c.isObj = true → setPath c (part :: rest) v = .ok c1 → c1.isObj = true
  | [], _, _, _, hc, h => putProp_isObj hc h
  | _ :: _, part, c, _, hc, h => by
    obtain ⟨cur1, child2, hcur, _, _, _, rfl⟩ := setPath_cons_ok h
    rcases hcur with ⟨_, rfl⟩ | ⟨_, hput⟩
    · exact withChild_isObj hc _ _
    · exact withChild_isObj (putProp_isObj hc hput) _ _

theorem deletePath_isObj : ∀ (rest : List String) (part : String) (c c1 : JVal),
    c.isObj = true → deletePath c (part :: rest) = .ok (some c1) → c1.isObj = true
  | [], part, c, c1, hc, h => by
    cases c <;> simp [isObj] at hc
    simp only [deletePath, deleteProp, bind, Except.bind, pure, Except.pure, Except.ok.injEq,
      Option.some.injEq] at h
    subst h
    rfl
  | p2 :: rest, part, c, c1, hc, h => by
    obtain ⟨_, h1 | h1 | ⟨_, child1, _, hr⟩⟩ := deletePath_cons_ok h
    · simp at h1
    · simp at h1
    · simp only [Option.some.injEq] at hr
      subst hr
      exact withChild_isObj hc _ _

/-- A `delete` either raises in its loop, returns early and leaves the store as it
was, or saves the document the loop left. -/
theorem delete_eq (s : Store) (h : Host) (now : Int) (diskOk : Bool) (p : String) :
    s.delete h now diskOk p =
      (deletePath s.data (split p)).map (fun r =>
        match r with
        | none => (s, h)
        | some d => save { s with data := d } h now diskOk) := by
  unfold delete
  cases deletePath s.data (split p) with
  | error e => rfl
  | ok r => cases r <;> rfl

end Store

/-! ## The claims on `get`, `set` and `delete` -/

/-- C10, as stated, fails on a file whose text is the JSON number `42`: it
parses, and `load` returns it as the document. -/
theorem document_not_object :
    (Store.create appDefaults (.text (some (num 42))) 0).data = num 42 ∧
      (Store.create appDefaults (.text (some (num 42))) 0).data.isObj = false :=
  ⟨rfl, rfl⟩

/-- C10, amended.  The document of the program's store is an object after
construction and after a `refresh-settings` reload whenever the file is missing,
unreadable, unparsable or the text of a JSON object (otherwise it is the value
the text denotes); it is an object after every `set(partialObject)`; and an
object document is still one after every `set(path, v)` and `delete(path)` that
completes. -/
theorem document_isObj :
    (∀ file now, DiskFile.yieldsObject file = true →
      (Store.create appDefaults file now).data.isObj = true) ∧
    (∀ (s : Store) file, s.defaults.isObj = true → DiskFile.yieldsObject file = true →
      (refreshSettings s file).data.isObj = true) ∧
    (∀ (s : Store) h now diskOk key v r, key.typeofObject = true →
      s.set h now diskOk key v = .ok r → r.1.data.isObj = true) ∧
    (∀ (s : Store) h now diskOk p v r, s.data.isObj = true →
      s.set h now diskOk (.str p) v = .ok r → r.1.data.isObj = true) ∧
    (∀ (s : Store) h now diskOk p r, s.data.isObj = true →
      s.delete h now diskOk p = .ok r → r.1.data.isObj = true) := by
  refine ⟨?_, ?_, ?_, ?_, ?_⟩
  · intro file now hf
    cases file with
    | missing => rfl
    | unreadable => rfl
    | text parsed =>
      cases parsed with
      | none => rfl
      | some v => exact hf
  · intro s file hs hf
    cases file with
    | missing => exact hs
    | unreadable => exact hs
    | text parsed =>
      cases parsed with
      | none => exact hs
      | some v => exact hf
  · intro s h now diskOk key v r hk hr
    unfold Store.set at hr
    simp only [hk, if_true, Except.ok.injEq] at hr
    subst hr
    rw [Store.save_data]
    rfl
  · intro s h now diskOk p v r hobj hr
    obtain ⟨part, rest, hsplit⟩ := Store.split_eq_cons p
    rw [Store.set_str_eq, hsplit] at hr
    cases hd : Store.setPath s.data (part :: rest) v with
    | error e => simp [hd, Except.map] at hr
    | ok d =>
      simp only [hd, Except.map, Except.ok.injEq] at hr
      subst hr
      rw [Store.save_data]
      exact Store.setPath_isObj rest part _ _ hobj hd
  · intro s h now diskOk p r hobj hr
    obtain ⟨part, rest, hsplit⟩ := Store.split_eq_cons p
    rw [Store.delete_eq, hsplit] at hr
    cases hd : Store.deletePath s.data (part :: rest) with
    | error e => simp [hd, Except.map] at hr
    | ok d =>
      simp only [hd, Except.map, Except.ok.injEq] at hr
      subst hr
      cases d with
      | none => exact hobj
      | some d1 =>
        simp only []
        rw [Store.save_data]
        exact Store.deletePath_isObj rest part _ _ hobj hd

/-- The amended C10 on a file that holds the text of `{}`, on a reload from a
missing file, on a merge of an array into a document that is a number, and on a
`set` and a `delete` on an object. -/
theorem document_isObj_witness :
    (Store.create appDefaults (.text (some (obj []))) 0).data.isObj = true ∧
      (refreshSettings ⟨appDefaults, num 42, 0, false⟩ .missing).data.isObj = true ∧
      (Store.set ⟨obj [], num 42, 0, false⟩ ⟨[], []⟩ 1000 true (arr 0 []) undefined
          = .ok (⟨obj [], obj [], 1000, false⟩, ⟨[⟨1000, obj [], true⟩], []⟩) ∧
        (obj []).isObj = true) ∧
      (Store.set ⟨obj [], obj [], 0, false⟩ ⟨[], []⟩ 1000 true (str "a") (num 1)
          = .ok (⟨obj [], obj [("a", num 1)], 1000, false⟩,
              ⟨[⟨1000, obj [("a", num 1)], true⟩], []⟩) ∧
        (obj [("a", num 1)]).isObj = true) ∧
      (Store.delete ⟨obj [], obj [("a", num 1)], 0, false⟩ ⟨[], []⟩ 1000 true "a"
          = .ok (⟨obj [], obj [], 1000, false⟩, ⟨[⟨1000, obj [], true⟩], []⟩) ∧
        (obj []).isObj = true) :=
  ⟨document_isObj.1 _ 0 rfl,
    document_isObj.2.1 _ .missing rfl rfl,
    ⟨rfl, document_isObj.2.2.1 ⟨obj [], num 42, 0, false⟩ ⟨[], []⟩ 1000 true (arr 0 [])
      undefined _ rfl rfl⟩,
    ⟨rfl, document_isObj.2.2.2.1 ⟨obj [], obj [], 0, false⟩ ⟨[], []⟩ 1000 true "a" (num 1)
      _ rfl rfl⟩,
    ⟨rfl, document_isObj.2.2.2.2 ⟨obj [], obj [("a", num 1)], 0, false⟩ ⟨[], []⟩ 1000 true "a"
      _ rfl rfl⟩⟩

/-! ## The debounced save -/

theorem spaced_cons {a : Int} {l : List Int} (hl : spaced l = true)
    (ha : ∀ t ∈ l, t + saveDebounceTime ≤ a) : spaced (a :: l) = true := by
  cases l with
  | nil => rfl
  | cons b rest =>
    simp only [spaced, Bool.and_eq_true, decide_eq_true_eq]
    exact ⟨ha b (by simp), hl⟩

theorem inv_boot (defaults : JVal) (file : DiskFile) (t0 : Int) :
    (boot defaults file t0).inv := by
  refine ⟨le_refl _, fun _ => rfl, ?_, ?_, rfl⟩
  · intro h
    simp [boot, Store.create] at h
  · intro t ht
    simp [boot, successTimes] at ht

theorem inv_save {sys : Sys} (hinv : sys.inv) {t : Int} (ht : sys.now ≤ t) (diskOk : Bool) :
    (Sys.mk (sys.store.save sys.host t diskOk).1 (sys.store.save sys.host t diskOk).2 t).inv := by
  obtain ⟨h1, h2, h3, h4, h5⟩ := hinv
  unfold Store.save
  cases hp : sys.store.pendingSave with
  | true =>
    simp only [if_true]
    exact ⟨le_trans h1 ht, fun h => by simp [hp] at h, fun _ => h3 hp, h4, h5⟩
  | false =>
    simp only [Bool.false_eq_true, if_false, Bool.not_false, if_true]
    have htim := h2 hp
    by_cases hw : t - sys.store.lastSave < saveDebounceTime
    · simp only [hw, if_true]
      refine ⟨le_trans h1 ht, fun h => by simp at h, fun _ => ⟨t + saveDebounceTime, ?_, ?_⟩,
        h4, h5⟩
      · simp [htim]
      · show sys.store.lastSave + saveDebounceTime ≤ t + saveDebounceTime
        omega
    · simp only [hw, if_false]
      unfold Store._actualSave
      cases diskOk with
      | true =>
        simp only [if_true]
        refine ⟨le_refl _, fun _ => htim, fun h => by simp [hp] at h, ?_, ?_⟩
        · intro u hu
          simp only [successTimes, List.filter_cons, if_true, List.map_cons,
            List.mem_cons] at hu
          rcases hu with rfl | hu
          · exact le_refl _
          · exact le_trans (h4 u hu) (le_trans h1 ht)
        · simp only [successTimes, List.filter_cons, if_true, List.map_cons]
          refine spaced_cons h5 ?_
          intro u hu
          have := h4 u hu
          omega
      | false =>
        simp only [Bool.false_eq_true, if_false]
        refine ⟨le_trans h1 ht, fun _ => htim, fun h => by simp [hp] at h, ?_, ?_⟩
        · simpa [successTimes, List.filter_cons] using h4
        · simpa [successTimes, List.filter_cons] using h5

theorem inv_fire {sys : Sys} (hinv : sys.inv) {i : Nat} {due t : Int}
    (hi : sys.host.timers.get? i = some due) (ht : sys.now ≤ t) (hdue : due ≤ t)
    (diskOk : Bool) :
    (Sys.mk
      (sys.store.deferredSave { sys.host with timers := sys.host.timers.eraseIdx i } t diskOk).1
      (sys.store.deferredSave { sys.host with timers := sys.host.timers.eraseIdx i } t diskOk).2
      t).inv := by
  obtain ⟨h1, h2, h3, h4, h5⟩ := hinv
  cases hp : sys.store.pendingSave with
  | false =>
    rw [h2 hp] at hi
    simp at hi
  | true =>
    obtain ⟨due0, htim, hd0⟩ := h3 hp
    rw [htim] at hi
    have hi0 : i = 0 ∧ due0 = due := by
      cases i with
      | zero => simpa using hi
      | succ n => simp at hi
    obtain ⟨rfl, rfl⟩ := hi0
    unfold Store.deferredSave Store._actualSave
    cases diskOk with
    | true =>
      simp only [if_true, htim, List.eraseIdx_cons_zero]
      refine ⟨le_refl _, fun _ => rfl, fun h => by simp at h, ?_, ?_⟩
      · intro u hu
        simp only [successTimes, List.filter_cons, if_true, List.map_cons,
          List.mem_cons] at hu
        rcases hu with rfl | hu
        · exact le_refl _
        · exact le_trans (h4 u hu) (le_trans h1 ht)
      · simp only [successTimes, List.filter_cons, if_true, List.map_cons]
        refine spaced_cons h5 ?_
        intro u hu
        have := h4 u hu
        omega
    | false =>
      simp only [Bool.false_eq_true, if_false, htim, List.eraseIdx_cons_zero]
      refine ⟨le_trans h1 ht, fun _ => rfl, fun h => by simp at h, ?_, ?_⟩
      · simpa [successTimes, List.filter_cons] using h4
      · simpa [successTimes, List.filter_cons] using h5

theorem inv_step {sys sys1 : Sys} (hinv : sys.inv) {e : Event} (h : step sys e = some sys1) :
    sys1.inv := by
  cases e with
  | mutate d =>
    simp only [step, Option.some.injEq] at h
    subst h
    exact hinv
  | save t diskOk =>
    simp only [step] at h
    split at h
    · rename_i ht
      simp only [Option.some.injEq] at h
      subst h
      exact inv_save hinv ht diskOk
    · simp at h
  | fire i t diskOk =>
    simp only [step] at h
    split at h
    · simp at h
    · rename_i due hi
      split at h
      · rename_i ht
        simp only [Option.some.injEq] at h
        subst h
        exact inv_fire hinv hi ht.1 ht.2 diskOk
      · simp at h

theorem inv_run : ∀ (evs : List Event) {sys sys1 : Sys}, sys.inv → run sys evs = some sys1 →
    sys1.inv
  | [], sys, sys1, hinv, h => by
    simp only [run, Option.some.injEq] at h
    subst h
    exact hinv
  | e :: es, sys, sys1, hinv, h => by
    simp only [run] at h
    cases hs : step sys e with
    | none => simp [hs] at h
    | some sys2 =>
      simp only [hs, Option.bind] at h
      exact inv_run es (inv_step hinv hs) h

/-- C6.  In every execution of the store from its construction, with any
interleaving of changes of the document, `save` requests and firings of armed
timers on a clock that does not run backwards, a timer firing no earlier than
the debounce time after it was armed: any two successive successful disk writes
are at least 500 ms apart, and at most one deferred write is armed. -/
theorem writes_spaced (defaults : JVal) (file : DiskFile) (t0 : Int) (evs : List Event)
    (sys : Sys) (h : run (boot defaults file t0) evs = some sys) :
    spaced (successTimes sys.host.writes) = true ∧ sys.host.timers.length ≤ 1 ∧
      saveDebounceTime = 500 := by
  obtain ⟨_, h2, h3, _, h5⟩ := inv_run evs (inv_boot defaults file t0) h
  refine ⟨h5, ?_, rfl⟩
  cases hp : sys.store.pendingSave with
  | false => simp [h2 hp]
  | true =>
    obtain ⟨due, hd, _⟩ := h3 hp
    simp [hd]

/-- The C6 statement on `sampleTrace`: writes at 600, 1200 and 2000. -/
theorem writes_spaced_witness :
    run (boot (obj []) .missing 0) sampleTrace
        = some ⟨⟨obj [], obj [("a", num 1)], 2000, false⟩,
            ⟨[⟨2000, obj [("a", num 1)], true⟩, ⟨1200, obj [("a", num 1)], true⟩,
              ⟨600, obj [("a", num 1)], true⟩], []⟩, 2000⟩ ∧
      spaced [2000, 1200, 600] = true :=
  ⟨rfl, (writes_spaced (obj []) .missing 0 sampleTrace _ rfl).1⟩

theorem set_ok_save {s : Store} {h : Host} {t : Int} {diskOk : Bool} {key v : JVal}
    {r : Store × Host} (hr : s.set h t diskOk key v = .ok r) :
    ∃ d, r = Store.save { s with data := d } h t diskOk := by
  by_cases hk : key.typeofObject = true
  · unfold Store.set at hr
    simp only [hk, if_true, Except.ok.injEq] at hr
    exact ⟨_, hr.symm⟩
  · cases key with
    | str k =>
      rw [Store.set_str_eq] at hr
      cases hd : Store.setPath s.data (split k) v with
      | error e => simp [hd, Except.map] at hr
      | ok d =>
        simp only [hd, Except.map, Except.ok.injEq] at hr
        exact ⟨d, hr.symm⟩
    | undefined => simp [Store.set, typeofObject] at hr
    | bool b => simp [Store.set, typeofObject] at hr
    | num n => simp [Store.set, typeofObject] at hr
    | null => simp [typeofObject] at hk
    | arr len props => simp [typeofObject] at hk
    | obj props => simp [typeofObject] at hk

theorem save_of_pending {s : Store} (hp : s.pendingSave = true) (h : Host) (t : Int)
    (diskOk : Bool) : s.save h t diskOk = (s, h) := by
  simp [Store.save, hp]

theorem save_in_window {s : Store} (hp : s.pendingSave = false) (h : Host) {t : Int}
    (hw : t - s.lastSave < saveDebounceTime) (diskOk : Bool) :
    s.save h t diskOk =
      ({ s with pendingSave := true }, { h with timers := h.timers ++ [t + saveDebounceTime] }) := by
  simp [Store.save, hp, hw]

/-- While a deferred write is pending, `set` calls leave `lastSave`, the flag,
the timers and the disk alone. -/
theorem setAll_of_pending : ∀ (calls : List SetCall) (s : Store) (h : Host) (sh : Store × Host),
    s.pendingSave = true → setAll (s, h) calls = .ok sh →
      sh.2 = h ∧ sh.1.pendingSave = true ∧ sh.1.lastSave = s.lastSave
  | [], s, h, sh, hp, hok => by
    simp only [setAll, Except.ok.injEq] at hok
    subst hok
    exact ⟨rfl, hp, rfl⟩
  | c :: cs, s, h, sh, hp, hok => by
    simp only [setAll, bind, Except.bind] at hok
    cases h1 : s.set h c.t c.diskOk c.key c.value with
    | error e => simp [h1] at hok
    | ok r =>
      simp only [h1] at hok
      obtain ⟨d, rfl⟩ := set_ok_save h1
      have hp1 : ({ s with data := d } : Store).pendingSave = true := hp
      rw [save_of_pending hp1 h c.t c.diskOk] at hok
      exact setAll_of_pending cs { s with data := d } h sh hp1 hok

/-- C5.  From any state of an execution of the store, take one or more `set`
calls that all complete and all fall within the debounce window, that is less
than 500 ms after the last save.  The calls write nothing themselves; when they
are over exactly one deferred write is armed, due after every one of them; and
when its timer fires, that one write carries the document as the last call
left it, and no deferred write remains armed. -/
theorem burst_one_write (defaults : JVal) (file : DiskFile) (t0 : Int) (evs : List Event)
    (sys : Sys) (hreach : run (boot defaults file t0) evs = some sys)
    (c : SetCall) (cs : List SetCall)
    (hwin : ∀ x ∈ c :: cs, sys.now ≤ x.t ∧ x.t - sys.store.lastSave < saveDebounceTime)
    (sh : Store × Host) (hok : setAll (sys.store, sys.host) (c :: cs) = .ok sh) :
    sh.2.writes = sys.host.writes ∧ sh.1.pendingSave = true ∧
      (∃ due, sh.2.timers = [due] ∧ ∀ x ∈ c :: cs, x.t < due) ∧
      ∀ tf diskOk,
        (sh.1.deferredSave { sh.2 with timers := [] } tf diskOk).2.writes
            = ⟨tf, sh.1.data, diskOk⟩ :: sys.host.writes ∧
          (sh.1.deferredSave { sh.2 with timers := [] } tf diskOk).2.timers = [] ∧
          (sh.1.deferredSave { sh.2 with timers := [] } tf diskOk).1.pendingSave = false := by
  obtain ⟨h1, h2, h3, _, _⟩ := inv_run evs (inv_boot defaults file t0) hreach
  have hfire : ∀ (s : Store) (h : Host) tf diskOk,
      (s.deferredSave { h with timers := [] } tf diskOk).2.writes
          = ⟨tf, s.data, diskOk⟩ :: h.writes ∧
        (s.deferredSave { h with timers := [] } tf diskOk).2.timers = [] ∧
        (s.deferredSave { h with timers := [] } tf diskOk).1.pendingSave = false := by
    intro s h tf diskOk
    unfold Store.deferredSave Store._actualSave
    cases diskOk <;> exact ⟨rfl, rfl, rfl⟩
  cases hp : sys.store.pendingSave with
  | true =>
    obtain ⟨due, htim, hdue⟩ := h3 hp
    obtain ⟨e1, e2, _⟩ := setAll_of_pending (c :: cs) sys.store sys.host sh hp hok
    refine ⟨by rw [e1], e2, ⟨due, by rw [e1, htim], ?_⟩, ?_⟩
    · intro x hx
      have := (hwin x hx).2
      omega
    · intro tf diskOk
      rw [← e1]
      exact hfire sh.1 sh.2 tf diskOk
  | false =>
    have htim := h2 hp
    simp only [setAll, bind, Except.bind] at hok
    cases hset : sys.store.set sys.host c.t c.diskOk c.key c.value with
    | error e => simp [hset] at hok
    | ok r =>
      simp only [hset] at hok
      obtain ⟨d, rfl⟩ := set_ok_save hset
      have hc := hwin c (by simp)
      have hp1 : ({ sys.store with data := d } : Store).pendingSave = false := hp
      have hw1 : c.t - ({ sys.store with data := d } : Store).lastSave < saveDebounceTime := hc.2
      rw [save_in_window hp1 sys.host hw1 c.diskOk] at hok
      obtain ⟨e1, e2, _⟩ := setAll_of_pending cs _ _ sh rfl hok
      refine ⟨by rw [e1], e2, ⟨c.t + saveDebounceTime, by rw [e1, htim]; rfl, ?_⟩, ?_⟩
      · intro x hx
        have := (hwin x hx).2
        have := hc.1
        omega
      · intro tf diskOk
        have hw : sh.2.writes = sys.host.writes := by rw [e1]
        rw [← hw]
        exact hfire sh.1 sh.2 tf diskOk

/-- The C5 statement on two `set` calls, 10 and 20 ms after construction: no
write yet, one timer due at 510, and the write it makes holds both values. -/
theorem burst_one_write_witness :
    setAll ((boot (obj []) .missing 0).store, (boot (obj []) .missing 0).host)
        [⟨10, true, str "a", num 1⟩, ⟨20, true, str "b", num 2⟩]
        = .ok (⟨obj [], obj [("a", num 1), ("b", num 2)], 0, true⟩, ⟨[], [510]⟩) ∧
      (Store.deferredSave ⟨obj [], obj [("a", num 1), ("b", num 2)], 0, true⟩ ⟨[], []⟩ 510
          true).2.writes
        = [⟨510, obj [("a", num 1), ("b", num 2)], true⟩] :=
  ⟨rfl,
    ((burst_one_write (obj []) .missing 0 [] (boot (obj []) .missing 0) rfl
      ⟨10, true, str "a", num 1⟩ [⟨20, true, str "b", num 2⟩]
      (by
        intro x hx
        simp only [List.mem_cons, List.mem_singleton, List.not_mem_nil, or_false] at hx
        rcases hx with rfl | rfl <;> decide)
      (⟨obj [], obj [("a", num 1), ("b", num 2)], 0, true⟩, ⟨[], [510]⟩) rfl).2.2.2 510 true).1⟩

/-! ## The edge-snap engine -/

/-- The first entry of the sorted array, by the order of the six pairs of
distances. -/
theorem closestEdge_cases (dl dt dr db : Int) :
    closestEdge dl dt dr db =
      if dl ≤ dt ∧ dl ≤ dr ∧ dl ≤ db then ⟨.left, dl⟩
      else if dt ≤ dr ∧ dt ≤ db then ⟨.top, dt⟩
      else if dr ≤ db then ⟨.right, dr⟩
      else ⟨.bottom, db⟩ := by
  by_cases h1 : dr ≤ db <;> by_cases h2 : dt ≤ dr <;> by_cases h3 : dt ≤ db <;>
    by_cases h4 : dl ≤ dt <;> by_cases h5 : dl ≤ dr <;> by_cases h6 : dl ≤ db <;>
    simp [closestEdge, sortEdges, edges, List.insertionSort, List.orderedInsert,
      h1, h2, h3, h4, h5, h6] <;> omega

theorem closestEdge_dist (dl dt dr db : Int) :
    (closestEdge dl dt dr db).dist = min dl (min dt (min dr db)) := by
  rw [closestEdge_cases]
  split_ifs <;> simp only [] <;> omega

/-- C8.  For every four distances, the edge `checkEdgeSnap` selects has a
distance no greater than any of the four, and it is the first entry, in the
order left, top, right, bottom, whose distance equals the selected one: ties go
to the edge listed first. -/
theorem closestEdge_first_min (dl dt dr db : Int) :
    (∀ e ∈ edges dl dt dr db, (closestEdge dl dt dr db).dist ≤ e.dist) ∧
      (edges dl dt dr db).find? (fun e => decide (e.dist = (closestEdge dl dt dr db).dist))
        = some (closestEdge dl dt dr db) := by
  constructor
  · intro e he
    rw [closestEdge_dist]
    simp only [edges, List.mem_cons, List.mem_singleton, List.not_mem_nil, or_false] at he
    rcases he with rfl | rfl | rfl | rfl <;> simp only [] <;> omega
  · rw [closestEdge_cases]
    split_ifs with h1 h2 h3
    · simp [edges, List.find?]
    · have a : dl ≠ dt := by omega
      simp [edges, List.find?, a]
    · have a : dl ≠ dr := by omega
      have b : dt ≠ dr := by omega
      simp [edges, List.find?, a, b]
    · have a : dl ≠ db := by omega
      have b : dt ≠ db := by omega
      have c : dr ≠ db := by omega
      simp [edges, List.find?, a, b, c]

theorem nearestEdge_dist (bounds : Rect) (w : BubbleWindow) :
    (nearestEdge bounds w).dist = minDist bounds w :=
  closestEdge_dist _ _ _ _

theorem orElse_truthy (a : JVal) : (orElse a (obj [])).truthy = true := by
  unfold orElse
  split
  · assumption
  · rfl

theorem orElse_isContainer {a : JVal} (h : a.truthy = false ∨ a.isContainer = true) :
    (orElse a (obj [])).isContainer = true := by
  unfold orElse
  split
  · rename_i ht
    rcases h with h | h
    · simp [h] at ht
    · exact h
  · rfl

/-- In sloppy code the position can always be assigned on the settings read at
lines 243 and 264. -/
theorem putProp_bubblePosition {c : JVal} (hc : c.truthy = true) (v : JVal) :
    ∃ c1, putProp false c "bubblePosition" v = .ok c1 ∧
      (c.isContainer = true → c1.isContainer = true ∧ getProp c1 "bubblePosition" = v) := by
  cases c
  case undefined => simp [truthy] at hc
  case null => simp [truthy] at hc
  case bool b => exact ⟨_, rfl, by simp [isContainer]⟩
  case num n => exact ⟨_, rfl, by simp [isContainer]⟩
  case str s => exact ⟨_, rfl, by simp [isContainer]⟩
  case arr len props =>
    have hk : ("bubblePosition" : String) ≠ "length" := by decide
    have hi : arrayIndex "bubblePosition" = none := by decide
    refine ⟨arr len (storeProp "bubblePosition" v props), ?_, fun _ => ⟨rfl, ?_⟩⟩
    · simp only [putProp, hk, if_false, hi]
    · simp only [getProp, hk, if_false, lookupProp_storeProp]
  case obj props =>
    exact ⟨_, rfl, fun _ => ⟨rfl, by simp only [getProp, lookupProp_storeProp]⟩⟩

/-- On a document that is an object, lines 243-245 complete, and when the stored
settings are absent or an object the position can be read back. -/
theorem savePosition_ok (app : App) (now : Int) (diskOk : Bool) (x y : Int)
    (hdoc : app.store.data.isObj = true) :
    ∃ sh, savePosition app now diskOk x y = .ok sh ∧
      (((app.store.get "settings").truthy = false ∨
          (app.store.get "settings").isContainer = true) →
        sh.1.get "settings.bubblePosition" = obj [("x", num x), ("y", num y)]) := by
  obtain ⟨c1, hput, hc1⟩ := putProp_bubblePosition (orElse_truthy (app.store.get "settings"))
    (obj [("x", num x), ("y", num y)])
  cases hd : app.store.data <;> simp [hd, isObj] at hdoc
  rename_i props
  have hsplit1 : split "settings" = ["settings"] := by decide
  have hsplit2 : split "settings.bubblePosition" = ["settings", "bubblePosition"] := by decide
  have hset : app.store.set app.host now diskOk (str "settings") c1
      = .ok (Store.save { app.store with data := obj (storeProp "settings" c1 props) }
          app.host now diskOk) := by
    rw [Store.set_str_eq, hsplit1, hd]
    rfl
  refine ⟨Store.save { app.store with data := obj (storeProp "settings" c1 props) }
    app.host now diskOk, ?_, ?_⟩
  · unfold savePosition
    simp only [hput, bind, Except.bind]
    exact hset
  · intro hs
    obtain ⟨hcont, hget⟩ := hc1 (orElse_isContainer hs)
    rw [Store.get_of_ne_empty _ (by decide), Store.save_data, hsplit2]
    simp only [Store.getPath, getProp, lookupProp_storeProp]
    rw [Store.getPath_cons_of_isContainer hcont, hget]
    rfl

/-- C3.  On a live widget, with a document that is an object and a configured
size `s` that is a number: `checkEdgeSnap` returns `true` exactly when the least
of the four distances is below 30; then the widget is flush against the
selected edge (left: `x = area.x`; right: `x = area.x + area.width - s`; top:
`y = area.y`; bottom: `y = area.y + area.height - s`) and its other coordinate
is unchanged; otherwise its position is unchanged. -/
theorem checkEdgeSnap_result (screen : Screen) (now : Int) (diskOk : Bool) (app : App)
    (w : BubbleWindow) (s : Int) (hw : app.bubbleWindow = some w)
    (hlive : w.destroyed = false) (hdoc : app.store.data.isObj = true)
    (hsize : bubbleSize app.store = num s) :
    (checkEdgeSnap screen now diskOk app).1
        = some (decide (minDist (screen.nearest w.x w.y) w < 30)) ∧
      ∃ w1, (checkEdgeSnap screen now diskOk app).2.bubbleWindow = some w1 ∧
        if minDist (screen.nearest w.x w.y) w < 30 then
          (match (nearestEdge (screen.nearest w.x w.y) w).name with
           | .left => w1.x = (screen.nearest w.x w.y).x ∧ w1.y = w.y
           | .right =>
             w1.x = (screen.nearest w.x w.y).x + (screen.nearest w.x w.y).width - s ∧ w1.y = w.y
           | .top => w1.x = w.x ∧ w1.y = (screen.nearest w.x w.y).y
           | .bottom =>
             w1.x = w.x ∧ w1.y = (screen.nearest w.x w.y).y + (screen.nearest w.x w.y).height - s)
        else w1.x = w.x ∧ w1.y = w.y := by
  unfold checkEdgeSnap
  simp only [hw, hlive, Bool.false_eq_true, if_false, hsize, nearestEdge_dist, snapThreshold]
  by_cases hmin : minDist (screen.nearest w.x w.y) w < 30
  · simp only [hmin, if_true, decide_True]
    obtain ⟨sh, hsave, _⟩ := savePosition_ok app now diskOk
      (snapTarget (nearestEdge (screen.nearest w.x w.y) w).name (screen.nearest w.x w.y) s
        w.x w.y).1
      (snapTarget (nearestEdge (screen.nearest w.x w.y) w).name (screen.nearest w.x w.y) s
        w.x w.y).2 hdoc
    simp only [hsave]
    refine ⟨trivial, _, rfl, ?_⟩
    cases (nearestEdge (screen.nearest w.x w.y) w).name <;> exact ⟨rfl, rfl⟩
  · simp only [hmin, if_false, decide_False]
    obtain ⟨sh, hsave, _⟩ := savePosition_ok app now diskOk w.x w.y hdoc
    simp only [hsave]
    exact ⟨trivial, _, rfl, rfl, rfl⟩

/-- The two cases the specification names, on the work area `(0, 0, 1920, 1080)`
with a widget of size 40: at `(5, 300)` it snaps to the left edge, `x = 0` and
`y = 300`; at `(960, 500)` it does not snap and stays. -/
theorem checkEdgeSnap_result_witness :
    ((checkEdgeSnap sampleScreen 0 true (sampleApp 5 300)).1 = some true ∧
        (checkEdgeSnap sampleScreen 0 true (sampleApp 5 300)).2.bubbleWindow
          = some ⟨false, 0, 300, 40, 40⟩) ∧
      ((checkEdgeSnap sampleScreen 0 true (sampleApp 960 500)).1 = some false ∧
        (checkEdgeSnap sampleScreen 0 true (sampleApp 960 500)).2.bubbleWindow
          = some ⟨false, 960, 500, 40, 40⟩) :=
  ⟨⟨(checkEdgeSnap_result sampleScreen 0 true (sampleApp 5 300) ⟨false, 5, 300, 40, 40⟩ 40
      rfl rfl rfl rfl).1.trans (by decide), rfl⟩,
    ⟨(checkEdgeSnap_result sampleScreen 0 true (sampleApp 960 500) ⟨false, 960, 500, 40, 40⟩ 40
      rfl rfl rfl rfl).1.trans (by decide), rfl⟩⟩

/-- C9.  On a live widget, with a document that is an object whose `settings`
are absent or an object and a configured size `s` that is a number: after
`checkEdgeSnap`, in either branch, `get('settings.bubblePosition')` is the
position `{x, y}` the widget then has, and the widget has width and height
`s`. -/
theorem checkEdgeSnap_persists (screen : Screen) (now : Int) (diskOk : Bool) (app : App)
    (w : BubbleWindow) (s : Int) (hw : app.bubbleWindow = some w)
    (hlive : w.destroyed = false) (hdoc : app.store.data.isObj = true)
    (hsettings : (app.store.get "settings").truthy = false ∨
      (app.store.get "settings").isContainer = true)
    (hsize : bubbleSize app.store = num s) :
    ∃ w1, (checkEdgeSnap screen now diskOk app).2.bubbleWindow = some w1 ∧
      (checkEdgeSnap screen now diskOk app).2.store.get "settings.bubblePosition"
        = obj [("x", num w1.x), ("y", num w1.y)] ∧
      w1.width = s ∧ w1.height = s := by
  unfold checkEdgeSnap
  simp only [hw, hlive, Bool.false_eq_true, if_false, hsize]
  split
  · obtain ⟨sh, hsave, hget⟩ := savePosition_ok app now diskOk
      (snapTarget (nearestEdge (screen.nearest w.x w.y) w).name (screen.nearest w.x w.y) s
        w.x w.y).1
      (snapTarget (nearestEdge (screen.nearest w.x w.y) w).name (screen.nearest w.x w.y) s
        w.x w.y).2 hdoc
    simp only [hsave]
    exact ⟨_, rfl, hget hsettings, rfl, rfl⟩
  · obtain ⟨sh, hsave, hget⟩ := savePosition_ok app now diskOk w.x w.y hdoc
    simp only [hsave]
    exact ⟨_, rfl, hget hsettings, rfl, rfl⟩

/-- The C9 statement at `(5, 300)`, the snap branch, where `{x: 0, y: 300}` is
stored. -/
theorem checkEdgeSnap_persists_witness :
    (checkEdgeSnap sampleScreen 0 true (sampleApp 5 300)).2.bubbleWindow
        = some ⟨false, 0, 300, 40, 40⟩ ∧
      (checkEdgeSnap sampleScreen 0 true (sampleApp 5 300)).2.store.get
        "settings.bubblePosition" = obj [("x", num 0), ("y", num 300)] := by
  obtain ⟨w1, h1, h2, _, _⟩ := checkEdgeSnap_persists sampleScreen 0 true (sampleApp 5 300)
    ⟨false, 5, 300, 40, 40⟩ 40 rfl rfl rfl (Or.inr rfl) rfl
  have h0 : (checkEdgeSnap sampleScreen 0 true (sampleApp 5 300)).2.bubbleWindow
      = some ⟨false, 0, 300, 40, 40⟩ := rfl
  rw [h0] at h1
  cases h1
  exact ⟨h0, h2⟩

/-! ## Restoring the saved position -/

/-- What `createBubbleWindow` does with a saved position `{x, y}` of numbers and
a size `s`: a saved coordinate is used when it is not 0, the default otherwise;
the display is the one nearest the saved point either way. -/
theorem createBubbleWindow_of_saved (screen : Screen) (store : Store) (x y s : Int)
    (hpos : getProp (orElse (store.get "settings") (obj [])) "bubblePosition"
      = obj [("x", num x), ("y", num y)])
    (hsize : bubbleSize store = num s) :
    createBubbleWindow screen store
      = some ⟨s, s,
          if x ≠ 0 then (x : ℚ)
          else (screen.nearest x y).x + (screen.nearest x y).width - s - 20,
          if y ≠ 0 then (y : ℚ)
          else (screen.nearest x y).y + ((screen.nearest x y).height : ℚ) / 2 - (s : ℚ) / 2⟩ := by
  unfold createBubbleWindow
  simp only [hsize, hpos]
  simp only [orElse, truthy, if_true, getProp, lookupProp, isDefined, Bool.and_self, coordinateOr]
  by_cases hx : x = 0 <;> by_cases hy : y = 0 <;> simp [hx, hy]

/-- C4 fails on the code.  After the snap of the widget at `(5, 300)` to the left
edge of the work area `(0, 0, 1920, 1080)` the store holds the position
`{x: 0, y: 300}`; `createBubbleWindow` on that store asks for the window at
`(1860, 300)`, the default abscissa at the right edge, since `0 || defaultX` is
`defaultX`. -/
theorem restart_after_left_snap :
    (checkEdgeSnap sampleScreen 0 true (sampleApp 5 300)).2.store.get "settings.bubblePosition"
        = obj [("x", num 0), ("y", num 300)] ∧
      createBubbleWindow sampleScreen (checkEdgeSnap sampleScreen 0 true (sampleApp 5 300)).2.store
        = some ⟨40, 40, 1860, 300⟩ := by
  refine ⟨rfl, ?_⟩
  rw [createBubbleWindow_of_saved sampleScreen
    (checkEdgeSnap sampleScreen 0 true (sampleApp 5 300)).2.store 0 300 40 rfl rfl]
  norm_num [sampleScreen]

/-! ## The due-date scan -/

/-- C2 fails on the code.  Two open tasks due in 20 and in 25 minutes, scanned
with `notificationTime = 30`: both are announced, but the array stored when the
scan ends has only the second one flagged, and a scan one minute later announces
the first again. -/
theorem scan_loses_flag :
    checkNotifications
        [⟨"a", "A", some 1200000, false, false⟩, ⟨"b", "B", some 1500000, false, false⟩] 30 0
      = ([⟨"A", 20⟩, ⟨"B", 25⟩],
          [⟨"a", "A", some 1200000, false, false⟩, ⟨"b", "B", some 1500000, false, true⟩]) ∧
      (checkNotifications
        [⟨"a", "A", some 1200000, false, false⟩, ⟨"b", "B", some 1500000, false, true⟩]
        30 60000).1 = [⟨"A", 19⟩] := by
  constructor <;> decide

/-! ## Loading -/

/-- C12.  Whatever the state of the file, `load` returns a value and raises
nothing: what its `try` raises, on a file that cannot be read or a text that
does not parse, ends in the `catch`.  It returns the supplied defaults when the
file is missing, when reading it fails and when its text fails to parse, and
the parsed document otherwise. -/
theorem load_resilient (defaults : JVal) (file : DiskFile) :
    (Store.loadTry defaults file = .ok (Store.load defaults file) ∨
      ∃ e, Store.loadTry defaults file = .error e ∧ Store.load defaults file = defaults) ∧
    Store.load defaults .missing = defaults ∧
    Store.load defaults .unreadable = defaults ∧
    Store.load defaults (.text none) = defaults ∧
    (∀ v, Store.load defaults (.text (some v)) = v) ∧
    Store.loadTry defaults .unreadable = .error .fsError ∧
    Store.loadTry defaults (.text none) = .error .syntaxError := by
  refine ⟨?_, rfl, rfl, rfl, fun _ => rfl, rfl, rfl⟩
  cases file with
  | missing => exact Or.inl rfl
  | unreadable => exact Or.inr ⟨_, rfl, rfl⟩
  | text parsed =>
    cases parsed with
    | none => exact Or.inr ⟨_, rfl, rfl⟩
    | some v => exact Or.inl rfl

/-! ## Running the edge snap twice -/

theorem getPath_nil (c : JVal) : Store.getPath c [] = c := by
  cases c <;> rfl

/-- What `checkEdgeSnap` does on a live widget with a configured size that is a
number: the widget ends at `restPosition` with that size, and the position is
saved if the store accepts it. -/
theorem checkEdgeSnap_run (screen : Screen) (now : Int) (diskOk : Bool) (app : App)
    (w : BubbleWindow) (s : Int) (hw : app.bubbleWindow = some w)
    (hlive : w.destroyed = false) (hsize : bubbleSize app.store = num s) :
    checkEdgeSnap screen now diskOk app =
      match savePosition app now diskOk (restPosition (screen.nearest w.x w.y) s w).1
          (restPosition (screen.nearest w.x w.y) s w).2 with
      | .ok sh =>
        (some (decide ((nearestEdge (screen.nearest w.x w.y) w).dist < snapThreshold)),
          ⟨sh.1, sh.2, some ⟨false, (restPosition (screen.nearest w.x w.y) s w).1,
            (restPosition (screen.nearest w.x w.y) s w).2, s, s⟩⟩)
      | .error _ =>
        (some false, { app with bubbleWindow := some ⟨false,
          (restPosition (screen.nearest w.x w.y) s w).1,
          (restPosition (screen.nearest w.x w.y) s w).2, s, s⟩ }) := by
  unfold checkEdgeSnap restPosition
  simp only [hw, hlive, Bool.false_eq_true, if_false, hsize]
  by_cases hmin : (nearestEdge (screen.nearest w.x w.y) w).dist < snapThreshold
  · simp only [hmin, if_true, decide_True]
  · simp only [hmin, if_false, decide_False]

/-- The assignment of line 244 keeps the settings truthy and leaves their
`bubble` alone. -/
theorem putProp_bubblePosition_keeps {c : JVal} (hc : c.isContainer = true) (v : JVal) :
    ∃ c1, putProp false c "bubblePosition" v = .ok c1 ∧ c1.isContainer = true ∧
      getProp c1 "bubblePosition" = v ∧ getProp c1 "bubble" = getProp c "bubble" := by
  have hne : ("bubble" : String) ≠ "bubblePosition" := by decide
  cases c <;> simp [isContainer] at hc
  case arr len props =>
    have hk : ("bubblePosition" : String) ≠ "length" := by decide
    have hk2 : ("bubble" : String) ≠ "length" := by decide
    have hi : arrayIndex "bubblePosition" = none := by decide
    refine ⟨arr len (storeProp "bubblePosition" v props), ?_, rfl, ?_, ?_⟩
    · simp only [putProp, hk, if_false, hi]
    · simp only [getProp, hk, if_false, lookupProp_storeProp]
    · simp only [getProp, hk2, if_false]
      exact lookupProp_storeProp_ne hne v props
  case obj props =>
    refine ⟨obj (storeProp "bubblePosition" v props), rfl, rfl, ?_, ?_⟩
    · simp only [getProp, lookupProp_storeProp]
    · simp only [getProp]
      exact lookupProp_storeProp_ne hne v props

theorem orElse_of_isContainer {a : JVal} (h : a.isContainer = true) (b : JVal) :
    orElse a b = a := by
  cases a <;> simp [isContainer] at h <;> rfl

/-- On a document that is an object whose `settings` are absent or an object,
lines 243-245 complete and leave such a document again, with the position
under `settings.bubblePosition` and the configured size as it was. -/
theorem savePosition_spec (app : App) (now : Int) (diskOk : Bool) (x y : Int)
    (hdoc : app.store.data.isObj = true)
    (hsettings : (app.store.get "settings").truthy = false ∨
      (app.store.get "settings").isContainer = true) :
    ∃ sh, savePosition app now diskOk x y = .ok sh ∧ sh.1.data.isObj = true ∧
      (sh.1.get "settings").isContainer = true ∧ bubbleSize sh.1 = bubbleSize app.store ∧
      sh.1.get "settings.bubblePosition" = obj [("x", num x), ("y", num y)] := by
  have hcont := orElse_isContainer hsettings
  obtain ⟨c1, hput, hc1, hpos, hbub⟩ := putProp_bubblePosition_keeps hcont
    (obj [("x", num x), ("y", num y)])
  cases hd : app.store.data <;> simp [hd, isObj] at hdoc
  rename_i props
  have hsplit1 : split "settings" = ["settings"] := by decide
  have hsplit2 : split "settings.bubblePosition" = ["settings", "bubblePosition"] := by decide
  have hset : app.store.set app.host now diskOk (str "settings") c1
      = .ok (Store.save { app.store with data := obj (storeProp "settings" c1 props) }
          app.host now diskOk) := by
    rw [Store.set_str_eq, hsplit1, hd]
    rfl
  have hget : (Store.save { app.store with data := obj (storeProp "settings" c1 props) }
      app.host now diskOk).1.get "settings" = c1 := by
    rw [Store.get_of_ne_empty _ (by decide), Store.save_data, hsplit1]
    simp only [Store.getPath, getProp, lookupProp_storeProp, getPath_nil]
  refine ⟨Store.save { app.store with data := obj (storeProp "settings" c1 props) }
    app.host now diskOk, ?_, ?_, ?_, ?_, ?_⟩
  · unfold savePosition
    simp only [hput, bind, Except.bind]
    exact hset
  · rw [Store.save_data]
    rfl
  · rw [hget]
    exact hc1
  · unfold bubbleSize
    simp only [hget, orElse_of_isContainer hc1, hbub]
  · rw [Store.get_of_ne_empty _ (by decide), Store.save_data, hsplit2]
    simp only [Store.getPath, getProp, lookupProp_storeProp]
    rw [Store.getPath_cons_of_isContainer hc1, hpos]
    rfl

/-- The position `checkEdgeSnap` leaves the widget at, by the order of the
distances. -/
theorem restPosition_eq (bounds : Rect) (s : Int) (w : BubbleWindow) :
    restPosition bounds s w =
      if distToLeft bounds w ≤ distToTop bounds w ∧ distToLeft bounds w ≤ distToRight bounds w ∧
          distToLeft bounds w ≤ distToBottom bounds w then
        (if distToLeft bounds w < 30 then (bounds.x, w.y) else (w.x, w.y))
      else if distToTop bounds w ≤ distToRight bounds w ∧
          distToTop bounds w ≤ distToBottom bounds w then
        (if distToTop bounds w < 30 then (w.x, bounds.y) else (w.x, w.y))
      else if distToRight bounds w ≤ distToBottom bounds w then
        (if distToRight bounds w < 30 then (bounds.x + bounds.width - s, w.y) else (w.x, w.y))
      else
        (if distToBottom bounds w < 30 then (w.x, bounds.y + bounds.height - s)
         else (w.x, w.y)) := by
  simp only [restPosition, nearestEdge, closestEdge_cases, snapThreshold]
  split_ifs <;> simp_all [snapTarget]

/-- A widget of the configured size inside the work area is at rest where
`checkEdgeSnap` has put it: a second computation gives the same position. -/
theorem restPosition_idem (bounds : Rect) (s : Int) (w : BubbleWindow)
    (hwidth : w.width = s) (hheight : w.height = s)
    (hl : 0 ≤ distToLeft bounds w) (ht : 0 ≤ distToTop bounds w)
    (hr : 0 ≤ distToRight bounds w) (hb : 0 ≤ distToBottom bounds w) :
    restPosition bounds s ⟨false, (restPosition bounds s w).1, (restPosition bounds s w).2, s, s⟩
      = restPosition bounds s w := by
  obtain ⟨d, x, y, wd, hg⟩ := w
  obtain ⟨bx, by1, bw, bh⟩ := bounds
  simp only [distToLeft, distToTop, distToRight, distToBottom] at hl ht hr hb
  simp only at hwidth hheight
  rw [restPosition_eq ⟨bx, by1, bw, bh⟩ s ⟨d, x, y, wd, hg⟩]
  simp only [distToLeft, distToTop, distToRight, distToBottom]
  split_ifs <;>
    (rw [restPosition_eq]
     simp only [distToLeft, distToTop, distToRight, distToBottom]
     split_ifs <;> simp only [Prod.mk.injEq] <;> omega)

/-- C13.  Take a live widget of the configured size `s` that lies inside the
work area of its display, all four distances non-negative, over a store that
follows the data model, and let the display nearest the widget be the same
after a first `checkEdgeSnap` as before it.  Then a second `checkEdgeSnap`
right after the first leaves the widget and `settings.bubblePosition` exactly as
the first left them. -/
theorem checkEdgeSnap_twice (screen : Screen) (now now2 : Int) (diskOk diskOk2 : Bool)
    (app : App) (w : BubbleWindow) (s : Int) (hw : app.bubbleWindow = some w)
    (hlive : w.destroyed = false) (hdoc : app.store.data.isObj = true)
    (hsettings : (app.store.get "settings").truthy = false ∨
      (app.store.get "settings").isContainer = true)
    (hsize : bubbleSize app.store = num s) (hwidth : w.width = s) (hheight : w.height = s)
    (hl : 0 ≤ distToLeft (screen.nearest w.x w.y) w)
    (ht : 0 ≤ distToTop (screen.nearest w.x w.y) w)
    (hr : 0 ≤ distToRight (screen.nearest w.x w.y) w)
    (hb : 0 ≤ distToBottom (screen.nearest w.x w.y) w)
    (hdisp : ∀ w1, (checkEdgeSnap screen now diskOk app).2.bubbleWindow = some w1 →
      screen.nearest w1.x w1.y = screen.nearest w.x w.y) :
    (checkEdgeSnap screen now2 diskOk2 (checkEdgeSnap screen now diskOk app).2).2.bubbleWindow
        = (checkEdgeSnap screen now diskOk app).2.bubbleWindow ∧
      (checkEdgeSnap screen now2 diskOk2 (checkEdgeSnap screen now diskOk app).2).2.store.get
          "settings.bubblePosition"
        = (checkEdgeSnap screen now diskOk app).2.store.get "settings.bubblePosition" := by
  obtain ⟨sh, hsave, hobj1, hset1, hsize1, hpos1⟩ := savePosition_spec app now diskOk
    (restPosition (screen.nearest w.x w.y) s w).1 (restPosition (screen.nearest w.x w.y) s w).2
    hdoc hsettings
  have h1 := checkEdgeSnap_run screen now diskOk app w s hw hlive hsize
  simp only [hsave] at h1
  rw [h1] at hdisp ⊢
  have hnear := hdisp _ rfl
  simp only at hnear
  have hrest := restPosition_idem (screen.nearest w.x w.y) s w hwidth hheight hl ht hr hb
  obtain ⟨sh2, hsave2, _, _, _, hpos2⟩ := savePosition_spec
    ⟨sh.1, sh.2, some ⟨false, (restPosition (screen.nearest w.x w.y) s w).1,
      (restPosition (screen.nearest w.x w.y) s w).2, s, s⟩⟩ now2 diskOk2
    (restPosition (screen.nearest w.x w.y) s w).1 (restPosition (screen.nearest w.x w.y) s w).2
    hobj1 (Or.inr hset1)
  have h2 := checkEdgeSnap_run screen now2 diskOk2
    ⟨sh.1, sh.2, some ⟨false, (restPosition (screen.nearest w.x w.y) s w).1,
      (restPosition (screen.nearest w.x w.y) s w).2, s, s⟩⟩
    ⟨false, (restPosition (screen.nearest w.x w.y) s w).1,
      (restPosition (screen.nearest w.x w.y) s w).2, s, s⟩ s rfl rfl (hsize1.trans hsize)
  simp only [hnear, hrest, hsave2] at h2
  rw [h2]
  exact ⟨rfl, hpos2.trans hpos1.symm⟩

/-- The C13 statement on the widget at `(5, 300)`: both runs leave it at
`(0, 300)` with `{x: 0, y: 300}` saved. -/
theorem checkEdgeSnap_twice_witness :
    (checkEdgeSnap sampleScreen 1 true (checkEdgeSnap sampleScreen 0 true (sampleApp 5 300)).2).2.bubbleWindow
        = some ⟨false, 0, 300, 40, 40⟩ ∧
      (checkEdgeSnap sampleScreen 1 true
          (checkEdgeSnap sampleScreen 0 true (sampleApp 5 300)).2).2.store.get
        "settings.bubblePosition" = obj [("x", num 0), ("y", num 300)] := by
  have h := checkEdgeSnap_twice sampleScreen 0 1 true true (sampleApp 5 300)
    ⟨false, 5, 300, 40, 40⟩ 40 rfl rfl rfl (Or.inr rfl) rfl rfl rfl (by decide) (by decide)
    (by decide) (by decide) (fun _ _ => rfl)
  have h1 : (checkEdgeSnap sampleScreen 0 true (sampleApp 5 300)).2.bubbleWindow
      = some ⟨false, 0, 300, 40, 40⟩ := rfl
  have h2 : (checkEdgeSnap sampleScreen 0 true (sampleApp 5 300)).2.store.get
      "settings.bubblePosition" = obj [("x", num 0), ("y", num 300)] := rfl
  exact ⟨h.1.trans h1, h.2.trans h2⟩

/-! ## Paths that diverge -/

namespace Store

end Store

/-! ## Merging a partial object -/

end WhatsNext
